import Mathlib

/-!
Shallow embedding of the pokemon-quiz backend (`pokemon-quiz-backend/main.go`).

The Go program's data model and the pure logic of its handlers are translated
into Lean definitions:

* Go structs (`Pokemon`, `PokemonStats`, `UserStat`, `RegionalStatDetail`)
  become Lean structures.  Go `int` fields become `Int`; the `float32` height
  and weight fields become `Rat` (only their zero/non-zero behaviour matters
  for the properties below, which rationals capture exactly).
* JSON-string-encoded fields (`WrongAnswers`, `RegionalStats`) are modelled in
  their decoded form: a list of ids, and an association list from category to
  `RegionalStatDetail`.  A Go map read of a missing key yields the zero value,
  which `lookupRegional` reproduces.
* The global maps `pokemonMapByID` and `pokemonListByRegion` are passed as
  explicit parameters (`Int → Option Pokemon` resp.
  `String → Option (List Pokemon)`, mirroring the two-result map read).
* `crypto/rand` draws are modelled by explicit streams: a shuffle takes
  `rs : Nat → Nat` and uses `rs i % (i+1)` where the Go code draws a uniform
  value in `[0, i]`; a single draw of an index into a list of length `n` is a
  parameter `randIndex` reduced modulo `n`.
* Network fetches of generation membership are a parameter
  `genMembers : Int → Option (List Int)` (`none` models a failed fetch, which
  the Go code skips), and the nondeterministic Go map iteration order over
  `regionGenerationMap` is a parameter `regionOrder`.
-/

namespace PokeQuiz

/-- Stat vector of a record (struct `PokemonStats` in main.go). -/
structure PokemonStats where
  HP : Int
  Attack : Int
  Defense : Int
  SpAttack : Int
  SpDefense : Int
  Speed : Int
deriving DecidableEq, Repr

/-- One record of the dataset (struct `Pokemon` in main.go). -/
structure Pokemon where
  ID : Int
  Name : String
  EnglishName : String
  Category : String
  Stats : PokemonStats
  ImageURL : String
  Height : Rat
  Weight : Rat
  Types : List String
deriving DecidableEq, Repr

/-- The JSON payload produced by `sendQuiz` (main.go lines 397-404): it carries
the target id, stats, options, height, weight and types, and omits the
target's display name. -/
structure QuizResponse where
  id : Int
  stats : PokemonStats
  options : List String
  height : Rat
  weight : Rat
  types : List String
deriving DecidableEq, Repr

/-- Outcome of a quiz request: either the 200 payload or an HTTP error
response with its status code and message. -/
inductive QuizResult where
  | ok (resp : QuizResponse)
  | httpError (status : Nat) (message : String)
deriving DecidableEq, Repr

/-- The HTTP error status of a quiz result, `none` on success. -/
def quizResultStatus : QuizResult → Option Nat
  | .ok _ => none
  | .httpError status _ => some status

/-- The option list of a successful quiz result (empty on error). -/
def quizOptions : QuizResult → List String
  | .ok resp => resp.options
  | .httpError _ _ => []

/-- One in-place swap `a[i], a[j] = a[j], a[i]` of the Go shuffle loops,
on a list.  Out-of-range indices leave the list unchanged (the Go code only
ever swaps in range). -/
def listSwap {α : Type} (l : List α) (i j : Nat) : List α :=
  if h : i < l.length ∧ j < l.length then
    (l.set i (l.get ⟨j, h.2⟩)).set j (l.get ⟨i, h.1⟩)
  else l

/-- The Fisher-Yates loop of `sendQuiz`: for `i` from `n-1` down to `1`,
swap position `i` with position `rs i % (i+1)` (the Go code draws a uniform
`j ∈ [0, i]` from `crypto/rand`; every such `j` is realised by some stream
`rs`). -/
def fyAux {α : Type} (rs : Nat → Nat) : Nat → List α → List α
  | 0, l => l
  | i + 1, l => fyAux rs i (listSwap l (i + 1) (rs (i + 1) % (i + 2)))

/-- Unbiased in-place shuffle used twice by `sendQuiz` (main.go lines 381-385
and 391-395). -/
def fisherYates {α : Type} (rs : Nat → Nat) (l : List α) : List α :=
  fyAux rs (l.length - 1) l

/-- `sendQuiz` (main.go lines 367-405): remove the target from the pool by id,
shuffle, take the first 3 names, prepend the target's name, shuffle the
combined options, and build the payload. -/
def sendQuiz (rs1 rs2 : Nat → Nat) (pokemon : Pokemon) (optionsPool : List Pokemon) : QuizResponse :=
  let filteredOptionsPool := optionsPool.filter (fun p => p.ID != pokemon.ID)
  let shuffledPool := fisherYates rs1 filteredOptionsPool
  let options := pokemon.Name :: (shuffledPool.take 3).map (fun p => p.Name)
  let finalOptions := fisherYates rs2 options
  { id := pokemon.ID
    stats := pokemon.Stats
    options := finalOptions
    height := pokemon.Height
    weight := pokemon.Weight
    types := pokemon.Types }

/-- Normal mode of `handleGetQuiz` (main.go lines 352-365): look the region up
in `pokemonListByRegion`; a missing or empty pool is rejected with HTTP 400;
otherwise a uniformly drawn target from the pool is sent to `sendQuiz`
together with the pool itself. -/
def handleGetQuizNormal (pokemonListByRegion : String → Option (List Pokemon))
    (randIndex : Nat) (rs1 rs2 : Nat → Nat) (region : String) : QuizResult :=
  match pokemonListByRegion region with
  | none => .httpError 400 "Invalid or empty region specified"
  | some targetPokemonList =>
    if h : targetPokemonList.length = 0 then
      .httpError 400 "Invalid or empty region specified"
    else
      let randomPokemon := targetPokemonList.get
        ⟨randIndex % targetPokemonList.length, Nat.mod_lt _ (Nat.pos_of_ne_zero h)⟩
      .ok (sendQuiz rs1 rs2 randomPokemon targetPokemonList)

/-- Review ("retry") mode of `handleGetQuiz` (main.go lines 287-349), after
authentication and after decoding the user's `WrongAnswers` list: an empty
missed list is rejected with HTTP 404; a drawn missed id with no record in
`pokemonMapByID` is rejected with HTTP 500; otherwise the option pool is the
target's category pool, falling back to the whole dataset (`allPokemon`, one
iteration order of `pokemonMapByID`) when that pool is missing or empty. -/
def handleGetQuizRetry (pokemonMapByID : Int → Option Pokemon)
    (pokemonListByRegion : String → Option (List Pokemon)) (allPokemon : List Pokemon)
    (wrongIDs : List Int) (randIndex : Nat) (rs1 rs2 : Nat → Nat) : QuizResult :=
  if h : wrongIDs.length = 0 then
    .httpError 404 "間違えた問題はありません"
  else
    let targetID := wrongIDs.get ⟨randIndex % wrongIDs.length, Nat.mod_lt _ (Nat.pos_of_ne_zero h)⟩
    match pokemonMapByID targetID with
    | none => .httpError 500 "ポケモンのデータが見つかりません"
    | some pokemon =>
      let optionsPool :=
        match pokemonListByRegion pokemon.Category with
        | none => allPokemon
        | some l => if l.length = 0 then allPokemon else l
      .ok (sendQuiz rs1 rs2 pokemon optionsPool)

/-- Outcome of an answer submission: the 200 payload of `handleAnswer`, or an
HTTP error response. -/
inductive AnswerResult where
  | ok (isCorrect : Bool) (correctPokemon : Pokemon)
  | httpError (status : Nat) (message : String)
deriving DecidableEq, Repr

/-- Grading part of `handleAnswer` (main.go lines 407-449): an id with no
record in `pokemonMapByID` is rejected with HTTP 404; otherwise correctness is
exact equality of the submitted name with the record's display name.  The
stats side effect for an identified user is `updateUserStats` below. -/
def handleAnswer (pokemonMapByID : Int → Option Pokemon) (reqID : Int) (reqName : String) :
    AnswerResult :=
  match pokemonMapByID reqID with
  | none => .httpError 404 "Pokemon not found"
  | some correctPokemon => .ok (reqName == correctPokemon.Name) correctPokemon

/-- Per-category counters (struct `RegionalStatDetail` in main.go). -/
structure RegionalStatDetail where
  Total : Int
  Correct : Int
deriving DecidableEq, Repr

/-- A user's durable progress record (struct `UserStat` in main.go), with the
two JSON-string fields in decoded form. -/
structure UserStat where
  TotalQuestions : Int
  TotalCorrect : Int
  WrongAnswers : List Int
  RegionalStats : List (String × RegionalStatDetail)
deriving DecidableEq, Repr

/-- Read of the decoded `RegionalStats` map: a missing key yields the Go zero
value `{Total := 0, Correct := 0}`. -/
def lookupRegional (m : List (String × RegionalStatDetail)) (region : String) :
    RegionalStatDetail :=
  match m with
  | [] => { Total := 0, Correct := 0 }
  | (k, v) :: t => if k = region then v else lookupRegional t region

/-- Write of the decoded `RegionalStats` map: replace the entry for the key if
present, otherwise add it. -/
def insertRegional (m : List (String × RegionalStatDetail)) (region : String)
    (d : RegionalStatDetail) : List (String × RegionalStatDetail) :=
  match m with
  | [] => [(region, d)]
  | (k, v) :: t => if k = region then (k, d) :: t else (k, v) :: insertRegional t region d

/-- `updateRegionalStats` (main.go lines 716-738): bump the category's total,
and its correct count when the answer was correct. -/
def updateRegionalStats (stat : UserStat) (region : String) (isCorrect : Bool) : UserStat :=
  let regionStat := lookupRegional stat.RegionalStats region
  let regionStat2 : RegionalStatDetail :=
    { Total := regionStat.Total + 1
      Correct := regionStat.Correct + (if isCorrect then 1 else 0) }
  { stat with RegionalStats := insertRegional stat.RegionalStats region regionStat2 }

/-- `updateUserStats` (main.go lines 656-714), the body of the per-user
transaction: increment `TotalQuestions`; update the regional counters when the
record exists and has a non-empty category; on a correct answer increment
`TotalCorrect` and remove the id from the missed list, on an incorrect answer
append the id to the missed list unless already present. -/
def updateUserStats (pokemonMapByID : Int → Option Pokemon) (pokemonID : Int)
    (isCorrect : Bool) (stat : UserStat) : UserStat :=
  let stat1 := { stat with TotalQuestions := stat.TotalQuestions + 1 }
  let wrongIDs := stat1.WrongAnswers
  let stat2 :=
    match pokemonMapByID pokemonID with
    | some pokemon =>
      if pokemon.Category ≠ "" then updateRegionalStats stat1 pokemon.Category isCorrect
      else stat1
    | none => stat1
  if isCorrect then
    { stat2 with
      TotalCorrect := stat2.TotalCorrect + 1
      WrongAnswers := wrongIDs.filter (fun id => id != pokemonID) }
  else
    { stat2 with
      WrongAnswers := if pokemonID ∈ wrongIDs then wrongIDs else wrongIDs ++ [pokemonID] }

/-- Loop body of `migrateRegionalStatsFromWrongAnswers` (main.go lines 584-598):
skip records with an empty category; for a record whose id is in the missed
list, bump its category's total.  Correct counts are never touched. -/
def migrateStep (wrongIDs : List Int) (regionalStats : List (String × RegionalStatDetail))
    (pokemon : Pokemon) : List (String × RegionalStatDetail) :=
  if pokemon.Category = "" then regionalStats
  else if pokemon.ID ∈ wrongIDs then
    insertRegional regionalStats pokemon.Category
      { Total := (lookupRegional regionalStats pokemon.Category).Total + 1
        Correct := (lookupRegional regionalStats pokemon.Category).Correct }
  else regionalStats

/-- `migrateRegionalStatsFromWrongAnswers` (main.go lines 570-602): starting
from an empty map, walk the dataset (in some iteration order) and apply
`migrateStep` with the user's decoded missed list. -/
def migrateRegionalStatsFromWrongAnswers (pokemonMapByID : List Pokemon) (stat : UserStat) :
    List (String × RegionalStatDetail) :=
  pokemonMapByID.foldl (migrateStep stat.WrongAnswers) []

/-- Stats read of `handleGetStats` (main.go lines 535-567) for a user with a
stored record: when the decoded regional map is empty and `TotalQuestions` is
positive, the migration recomputes the map for the response; the stored record
itself is returned unchanged (the handler performs no database write), which
the second component makes explicit. -/
def handleGetStats (pokemonMapByID : List Pokemon) (userStat : UserStat) :
    List (String × RegionalStatDetail) × UserStat :=
  let regionalStats := userStat.RegionalStats
  let regionalStats2 :=
    if regionalStats = [] ∧ 0 < userStat.TotalQuestions then
      migrateRegionalStatsFromWrongAnswers pokemonMapByID userStat
    else regionalStats
  (regionalStats2, userStat)

/-- `strings.Contains` on char lists: `pat` occurs in `s` as a contiguous
substring (the empty pattern always occurs). -/
def containsSub (s pat : List Char) : Bool :=
  match s with
  | [] => pat.isEmpty
  | c :: t => pat.isPrefixOf (c :: t) || containsSub t pat

/-- `strings.Contains` on strings. -/
def hasSub (s pat : String) : Bool :=
  containsSub s.data pat.data

/-- The special-form dispatch of the variant discovery in
`fetchAllPokemonData` (main.go lines 918-927): the category
`fetchAndAddVariety` stores on the variant record, or `none` when the variant
is not materialised at all. -/
def varietyCategory (vName : String) : Option String :=
  if hasSub vName "-mega" || hasSub vName "-mega-x" || hasSub vName "-mega-y" then some "mega"
  else if hasSub vName "-gmax" then some "gmax"
  else if hasSub vName "-alola" || hasSub vName "-galar" || hasSub vName "-hisui" ||
      hasSub vName "-paldea" then some "regional"
  else none

/-- Pass 1 of `fetchCategoryData` (main.go lines 1043-1051): assign the
special category matching the record's source name, first pattern wins. -/
def pass1Assign (p : Pokemon) : Pokemon :=
  if hasSub p.EnglishName "-mega" then { p with Category := "mega" }
  else if hasSub p.EnglishName "-gmax" then { p with Category := "gmax" }
  else if hasSub p.EnglishName "-alola" || hasSub p.EnglishName "-galar" ||
      hasSub p.EnglishName "-hisui" || hasSub p.EnglishName "-paldea" then
    { p with Category := "regional" }
  else p

/-- Per-record assignment of pass 2 of `fetchCategoryData` (main.go lines
1071-1083): a generation member whose category is still empty receives the
region; every other record is left untouched. -/
def assignRegion (region : String) (memberIDs : List Int) (p : Pokemon) : Pokemon :=
  if p.ID ∈ memberIDs ∧ p.Category = "" then { p with Category := region } else p

/-- One `regionGenerationMap` entry of pass 2 of `fetchCategoryData`
(main.go lines 1054-1084): special categories (non-positive generation id)
are skipped, as is a region whose member fetch fails (`genMembers` returns
`none`); otherwise every member record with an empty category is assigned. -/
def pass2Step (genMembers : Int → Option (List Int)) (acc : List Pokemon)
    (rg : String × Int) : List Pokemon :=
  if rg.2 ≤ 0 then acc
  else
    match genMembers rg.2 with
    | none => acc
    | some memberIDs => acc.map (assignRegion rg.1 memberIDs)

/-- `fetchCategoryData` (main.go lines 1039-1085): pass 1 over every record,
then pass 2 over the entries of `regionGenerationMap` in iteration order
`regionOrder`. -/
def fetchCategoryData (genMembers : Int → Option (List Int))
    (regionOrder : List (String × Int)) (ps : List Pokemon) : List Pokemon :=
  regionOrder.foldl (pass2Step genMembers) (ps.map pass1Assign)

/-- Read of `pokemonMapByID` modelled as a list of records keyed by their `ID`
field (the Go code always stores a record under its own id). -/
def mapLookup (m : List Pokemon) (id : Int) : Option Pokemon :=
  m.find? (fun p => p.ID == id)

/-- `loadOrFetchPokemonData` (main.go lines 773-832), with the filesystem and
the network as parameters: `cacheFile` is the decoded cache contents (`none`
when `pokemon.json` is absent) and `fetched` is the dataset a full
`fetchAllPokemonData` run would produce.  The result is the in-memory dataset
paired with the final cache file contents.  With a cache present, the record
with id 1 is sampled: when it exists and has empty types, zero height or zero
weight, the cache is discarded, the full re-fetch is used and written back
(this branch performs no `fetchCategoryData`, as in the code); otherwise the
cached dataset is kept and the file left unchanged.  With no cache, the fetch
is classified and written. -/
def loadOrFetchPokemonData (genMembers : Int → Option (List Int))
    (regionOrder : List (String × Int)) (fetched : List Pokemon)
    (cacheFile : Option (List Pokemon)) : List Pokemon × Option (List Pokemon) :=
  match cacheFile with
  | some cached =>
    match mapLookup cached 1 with
    | some p =>
      if p.Types = [] ∨ p.Height = 0 ∨ p.Weight = 0 then (fetched, some fetched)
      else (cached, some cached)
    | none => (cached, some cached)
  | none =>
    let built := fetchCategoryData genMembers regionOrder fetched
    (built, some built)

/-! ### Shuffle infrastructure: a Fisher-Yates pass permutes its input -/

theorem set_self_of_get {α : Type} (l : List α) (i : Nat) (h : i < l.length) :
    l.set i (l.get ⟨i, h⟩) = l := by
  induction l generalizing i with
  | nil => simp at h
  | cons x t ih =>
    cases i with
    | zero => simp
    | succ k =>
      simp only [List.length_cons, Nat.add_lt_add_iff_right] at h
      simpa using ih k h

theorem getCons_set_perm {α : Type} (t : List α) (k : Nat) (hk : k < t.length) (x : α) :
    (t.get ⟨k, hk⟩ :: t.set k x).Perm (x :: t) := by
  induction t generalizing k with
  | nil => simp at hk
  | cons y s ih =>
    cases k with
    | zero => simpa using List.Perm.swap x y s
    | succ k =>
      simp only [List.length_cons, Nat.add_lt_add_iff_right] at hk
      have step1 : (s.get ⟨k, hk⟩ :: y :: s.set k x).Perm (y :: s.get ⟨k, hk⟩ :: s.set k x) :=
        List.Perm.swap y _ _
      have step2 : (y :: s.get ⟨k, hk⟩ :: s.set k x).Perm (y :: x :: s) :=
        List.Perm.cons y (ih k hk)
      have step3 : (y :: x :: s).Perm (x :: y :: s) := List.Perm.swap x y s
      simpa using (step1.trans step2).trans step3

theorem set_set_get_perm {α : Type} (l : List α) (i j : Nat) (hij : i < j) (hj : j < l.length) :
    ((l.set i (l.get ⟨j, hj⟩)).set j (l.get ⟨i, Nat.lt_trans hij hj⟩)).Perm l := by
  induction l generalizing i j with
  | nil => simp at hj
  | cons x t ih =>
    cases j with
    | zero => omega
    | succ k =>
      simp only [List.length_cons, Nat.add_lt_add_iff_right] at hj
      cases i with
      | zero =>
        simpa using getCons_set_perm t k hj x
      | succ m =>
        have hmk : m < k := by omega
        simpa using List.Perm.cons x (ih m k hmk hj)

theorem listSwap_perm {α : Type} (l : List α) (i j : Nat) : (listSwap l i j).Perm l := by
  unfold listSwap
  split
  · rename_i h
    rcases Nat.lt_trichotomy i j with hlt | heq | hgt
    · exact set_set_get_perm l i j hlt h.2
    · subst heq
      rw [List.set_set, set_self_of_get]
    · rw [List.set_comm _ _ _ (by omega)]
      exact set_set_get_perm l j i hgt h.1
  · exact List.Perm.refl l

theorem fyAux_perm {α : Type} (rs : Nat → Nat) : ∀ (n : Nat) (l : List α), (fyAux rs n l).Perm l
  | 0, _ => List.Perm.refl _
  | n + 1, l =>
    (fyAux_perm rs n (listSwap l (n + 1) (rs (n + 1) % (n + 2)))).trans (listSwap_perm l _ _)

theorem fisherYates_perm {α : Type} (rs : Nat → Nat) (l : List α) :
    (fisherYates rs l).Perm l :=
  fyAux_perm rs (l.length - 1) l

/-! ### Option-generation lemmas for `sendQuiz` -/

theorem filter_ne_id_length {pokemon : Pokemon} {optionsPool : List Pokemon}
    (hids : (optionsPool.map Pokemon.ID).Nodup) (hmem : pokemon ∈ optionsPool) :
    (optionsPool.filter (fun p => p.ID != pokemon.ID)).length + 1 = optionsPool.length := by
  induction optionsPool with
  | nil => simp at hmem
  | cons q t ih =>
    simp only [List.map_cons, List.nodup_cons] at hids
    rcases List.mem_cons.mp hmem with hq | ht
    · subst hq
      have hall : t.filter (fun p => p.ID != pokemon.ID) = t := by
        rw [List.filter_eq_self]
        intro a ha
        have : a.ID ≠ pokemon.ID := fun hcontra => hids.1 (hcontra ▸ List.mem_map_of_mem Pokemon.ID ha)
        simpa using this
      simp [hall]
    · have hne : q.ID ≠ pokemon.ID := by
        intro hcontra
        exact hids.1 (hcontra ▸ List.mem_map_of_mem Pokemon.ID ht)
      have hkeep : (q.ID != pokemon.ID) = true := by simpa using hne
      simp only [List.filter_cons, hkeep, if_true, List.length_cons]
      have := ih hids.2 ht
      omega

theorem filter_ne_id_name_not_mem {pokemon : Pokemon} {optionsPool : List Pokemon}
    (hnames : (optionsPool.map Pokemon.Name).Nodup) (hmem : pokemon ∈ optionsPool) :
    pokemon.Name ∉ (optionsPool.filter (fun p => p.ID != pokemon.ID)).map Pokemon.Name := by
  intro hcontra
  obtain ⟨q, hq, hqname⟩ := List.mem_map.mp hcontra
  obtain ⟨hqmem, hqid⟩ := List.mem_filter.mp hq
  have : q = pokemon := List.inj_on_of_nodup_map hnames hqmem hmem hqname
  subst this
  simp at hqid

theorem sendQuiz_options_spec (rs1 rs2 : Nat → Nat) (pokemon : Pokemon)
    (optionsPool : List Pokemon)
    (hmem : pokemon ∈ optionsPool)
    (hnames : (optionsPool.map Pokemon.Name).Nodup)
    (hids : (optionsPool.map Pokemon.ID).Nodup) :
    (sendQuiz rs1 rs2 pokemon optionsPool).options.length = min 4 optionsPool.length ∧
    (sendQuiz rs1 rs2 pokemon optionsPool).options.count pokemon.Name = 1 ∧
    (sendQuiz rs1 rs2 pokemon optionsPool).options.Nodup := by
  have hpos : 0 < optionsPool.length := List.length_pos_of_mem hmem
  set filtered := optionsPool.filter (fun p => p.ID != pokemon.ID) with hfiltered
  have hflen : filtered.length + 1 = optionsPool.length := filter_ne_id_length hids hmem
  have hfnames : (filtered.map Pokemon.Name).Nodup :=
    hnames.sublist (List.Sublist.map Pokemon.Name (List.filter_sublist optionsPool))
  have hfnot : pokemon.Name ∉ filtered.map Pokemon.Name :=
    filter_ne_id_name_not_mem hnames hmem
  set shuffled := fisherYates rs1 filtered with hshuffled
  have hperm : shuffled.Perm filtered := fisherYates_perm rs1 filtered
  have hpermn : (shuffled.map Pokemon.Name).Perm (filtered.map Pokemon.Name) :=
    hperm.map Pokemon.Name
  have hsnames : (shuffled.map Pokemon.Name).Nodup := hpermn.symm.nodup hfnames
  have hsnot : pokemon.Name ∉ shuffled.map Pokemon.Name := fun h =>
    hfnot (hpermn.mem_iff.mp h)
  set taken := (shuffled.take 3).map Pokemon.Name with htaken
  have htsub : taken.Sublist (shuffled.map Pokemon.Name) :=
    List.Sublist.map Pokemon.Name (List.take_sublist 3 shuffled)
  have htnames : taken.Nodup := hsnames.sublist htsub
  have htnot : pokemon.Name ∉ taken := fun h => hsnot (htsub.subset h)
  have htlen : taken.length = min 3 filtered.length := by
    simp [htaken, hperm.length_eq]
  set pre := pokemon.Name :: taken with hpre
  have hprelen : pre.length = min 4 optionsPool.length := by
    simp only [hpre, List.length_cons, htlen]
    omega
  have hprecount : pre.count pokemon.Name = 1 := by
    simp only [hpre, List.count_cons_self, List.count_eq_zero.mpr htnot]
  have hprenodup : pre.Nodup := List.nodup_cons.mpr ⟨htnot, htnames⟩
  have hfinal : (fisherYates rs2 pre).Perm pre := fisherYates_perm rs2 pre
  have hopts : (sendQuiz rs1 rs2 pokemon optionsPool).options = fisherYates rs2 pre := rfl
  refine ⟨?_, ?_, ?_⟩
  · rw [hopts, hfinal.length_eq, hprelen]
  · rw [hopts, hfinal.count_eq, hprecount]
  · rw [hopts]
    exact hfinal.symm.nodup hprenodup

/-! ### Sample data for concrete witnesses -/

def sampleStats : PokemonStats :=
  { HP := 45, Attack := 49, Defense := 49, SpAttack := 65, SpDefense := 65, Speed := 45 }

def bulbasaur : Pokemon :=
  { ID := 1, Name := "フシギダネ", EnglishName := "bulbasaur", Category := "kanto"
    Stats := sampleStats, ImageURL := "", Height := 7/10, Weight := 69/10
    Types := ["くさ", "どく"] }

def ivysaur : Pokemon :=
  { ID := 2, Name := "フシギソウ", EnglishName := "ivysaur", Category := "kanto"
    Stats := sampleStats, ImageURL := "", Height := 1, Weight := 13
    Types := ["くさ", "どく"] }

def venusaur : Pokemon :=
  { ID := 3, Name := "フシギバナ", EnglishName := "venusaur", Category := "kanto"
    Stats := sampleStats, ImageURL := "", Height := 2, Weight := 100
    Types := ["くさ", "どく"] }

def charmander : Pokemon :=
  { ID := 4, Name := "ヒトカゲ", EnglishName := "charmander", Category := "kanto"
    Stats := sampleStats, ImageURL := "", Height := 6/10, Weight := 85/10
    Types := ["ほのお"] }

def squirtle : Pokemon :=
  { ID := 7, Name := "ゼニガメ", EnglishName := "squirtle", Category := "kanto"
    Stats := sampleStats, ImageURL := "", Height := 1/2, Weight := 9
    Types := ["みず"] }

def charizardMegaX : Pokemon :=
  { ID := 10034, Name := "リザードン", EnglishName := "charizard-mega-x", Category := "mega"
    Stats := sampleStats, ImageURL := "", Height := 17/10, Weight := 1105/10
    Types := ["ほのお", "ドラゴン"] }

def kantoIndex : String → Option (List Pokemon) := fun region =>
  if region = "kanto" then some [bulbasaur, ivysaur, venusaur, charmander, squirtle] else none

def sampleMap : Int → Option Pokemon := fun id =>
  if id = 1 then some bulbasaur
  else if id = 2 then some ivysaur
  else if id = 3 then some venusaur
  else none

def zeroStream : Nat → Nat := fun _ => 0

/-! ### C1: option set of a normal-mode question -/

/-- C1: for a category pool with `N ≥ 1` records whose display names are
pairwise distinct (the spec's dataset invariant) and whose ids are pairwise
distinct (map keys), a normal-mode request succeeds and the returned option
list has exactly `min 4 N` entries, contains the drawn target's display name
exactly once, and contains no duplicate names. -/
theorem normal_mode_options_spec (pokemonListByRegion : String → Option (List Pokemon))
    (region : String) (l : List Pokemon) (randIndex : Nat) (rs1 rs2 : Nat → Nat)
    (hreg : pokemonListByRegion region = some l)
    (hlen : 0 < l.length)
    (hnames : (l.map Pokemon.Name).Nodup)
    (hids : (l.map Pokemon.ID).Nodup) :
    quizResultStatus (handleGetQuizNormal pokemonListByRegion randIndex rs1 rs2 region)
      = none ∧
    (quizOptions (handleGetQuizNormal pokemonListByRegion randIndex rs1 rs2 region)).length
      = min 4 l.length ∧
    (quizOptions (handleGetQuizNormal pokemonListByRegion randIndex rs1 rs2 region)).count
      ((l.get ⟨randIndex % l.length, Nat.mod_lt _ hlen⟩).Name) = 1 ∧
    (quizOptions (handleGetQuizNormal pokemonListByRegion randIndex rs1 rs2 region)).Nodup := by
  have hne : ¬l.length = 0 := by omega
  have hres : handleGetQuizNormal pokemonListByRegion randIndex rs1 rs2 region
      = .ok (sendQuiz rs1 rs2 (l.get ⟨randIndex % l.length, Nat.mod_lt _ hlen⟩) l) := by
    unfold handleGetQuizNormal
    rw [hreg]
    simp only [hne, dite_false]
  have hmain := sendQuiz_options_spec rs1 rs2
    (l.get ⟨randIndex % l.length, Nat.mod_lt _ hlen⟩) l
    (List.get_mem l _ _) hnames hids
  rw [hres]
  exact ⟨rfl, hmain.1, hmain.2.1, hmain.2.2⟩

/-- Witness for C1 at a concrete 5-record kanto pool. -/
theorem normal_mode_options_spec_witness :
    quizResultStatus (handleGetQuizNormal kantoIndex 2 zeroStream zeroStream "kanto")
      = none ∧
    (quizOptions (handleGetQuizNormal kantoIndex 2 zeroStream zeroStream "kanto")).length
      = min 4 ([bulbasaur, ivysaur, venusaur, charmander, squirtle] : List Pokemon).length ∧
    (quizOptions (handleGetQuizNormal kantoIndex 2 zeroStream zeroStream "kanto")).count
      ((([bulbasaur, ivysaur, venusaur, charmander, squirtle] : List Pokemon).get
        ⟨2 % 5, by decide⟩).Name) = 1 ∧
    (quizOptions (handleGetQuizNormal kantoIndex 2 zeroStream zeroStream "kanto")).Nodup :=
  normal_mode_options_spec kantoIndex "kanto"
    [bulbasaur, ivysaur, venusaur, charmander, squirtle] 2 zeroStream zeroStream
    rfl (by decide) (by decide) (by decide)

/-! ### Association-list lemmas for the regional-stats map -/

theorem lookupRegional_insertRegional (m : List (String × RegionalStatDetail))
    (region : String) (d : RegionalStatDetail) :
    lookupRegional (insertRegional m region d) region = d := by
  induction m with
  | nil => simp [insertRegional, lookupRegional]
  | cons kv t ih =>
    obtain ⟨k, v⟩ := kv
    by_cases hk : k = region <;> simp [insertRegional, lookupRegional, hk, ih]

theorem lookupRegional_insertRegional_ne (m : List (String × RegionalStatDetail))
    (region other : String) (d : RegionalStatDetail) (h : other ≠ region) :
    lookupRegional (insertRegional m region d) other = lookupRegional m other := by
  induction m with
  | nil => simp [insertRegional, lookupRegional, h, Ne.symm h]
  | cons kv t ih =>
    obtain ⟨k, v⟩ := kv
    by_cases hk : k = region
    · subst hk
      simp [insertRegional, lookupRegional, h, Ne.symm h]
    · by_cases hko : k = other <;>
        simp [insertRegional, lookupRegional, hk, hko, h, Ne.symm h, ih]

/-- The missed list after `updateUserStats`, in closed form: a correct answer
filters the id out, an incorrect answer appends it unless present. -/
theorem updateUserStats_wrongAnswers (pokemonMapByID : Int → Option Pokemon)
    (pokemonID : Int) (isCorrect : Bool) (stat : UserStat) :
    (updateUserStats pokemonMapByID pokemonID isCorrect stat).WrongAnswers =
      if isCorrect then stat.WrongAnswers.filter (fun id => id != pokemonID)
      else if pokemonID ∈ stat.WrongAnswers then stat.WrongAnswers
      else stat.WrongAnswers ++ [pokemonID] := by
  unfold updateUserStats
  cases hp : pokemonMapByID pokemonID
  · cases isCorrect <;> simp
  · rename_i p
    by_cases hcat : p.Category ≠ "" <;>
      cases isCorrect <;> simp [hcat, updateRegionalStats]

/-! ### C2: each graded answer bumps total and category total by one -/

/-- C2: for an answer graded on a record present in the dataset with a
non-empty category, `updateUserStats` increases the user's total-questions
counter and that category's total counter by exactly 1, whether or not the
answer was correct. -/
theorem recordAnswer_increments_totals (pokemonMapByID : Int → Option Pokemon)
    (pokemonID : Int) (isCorrect : Bool) (stat : UserStat) (pokemon : Pokemon)
    (hfind : pokemonMapByID pokemonID = some pokemon)
    (hcat : pokemon.Category ≠ "") :
    (updateUserStats pokemonMapByID pokemonID isCorrect stat).TotalQuestions
      = stat.TotalQuestions + 1 ∧
    (lookupRegional (updateUserStats pokemonMapByID pokemonID isCorrect stat).RegionalStats
        pokemon.Category).Total
      = (lookupRegional stat.RegionalStats pokemon.Category).Total + 1 := by
  cases isCorrect <;>
    simp [updateUserStats, updateRegionalStats, hfind, hcat, lookupRegional_insertRegional]

/-- Witness for C2: an incorrect answer on ivysaur (category kanto). -/
theorem recordAnswer_increments_totals_witness :
    (updateUserStats sampleMap 2 false
        { TotalQuestions := 3, TotalCorrect := 1, WrongAnswers := [5], RegionalStats := [] }).TotalQuestions
      = (3 : Int) + 1 ∧
    (lookupRegional (updateUserStats sampleMap 2 false
        { TotalQuestions := 3, TotalCorrect := 1, WrongAnswers := [5], RegionalStats := [] }).RegionalStats
        ivysaur.Category).Total
      = (lookupRegional [] ivysaur.Category).Total + 1 :=
  recordAnswer_increments_totals sampleMap 2 false
    { TotalQuestions := 3, TotalCorrect := 1, WrongAnswers := [5], RegionalStats := [] }
    ivysaur rfl (by decide)

/-! ### C4: a correct answer removes exactly its id from the missed set -/

/-- C4: recording a correct answer for `pokemonID` filters exactly that id
out of the missed list: the id is gone, every other id's membership is
unchanged, and when the id was absent the list is unchanged. -/
theorem correct_answer_removes_missed (pokemonMapByID : Int → Option Pokemon)
    (pokemonID : Int) (stat : UserStat) :
    (updateUserStats pokemonMapByID pokemonID true stat).WrongAnswers
      = stat.WrongAnswers.filter (fun id => id != pokemonID) ∧
    pokemonID ∉ (updateUserStats pokemonMapByID pokemonID true stat).WrongAnswers ∧
    (∀ y : Int, y ≠ pokemonID →
      (y ∈ (updateUserStats pokemonMapByID pokemonID true stat).WrongAnswers
        ↔ y ∈ stat.WrongAnswers)) ∧
    (pokemonID ∉ stat.WrongAnswers →
      (updateUserStats pokemonMapByID pokemonID true stat).WrongAnswers
        = stat.WrongAnswers) := by
  have hw := updateUserStats_wrongAnswers pokemonMapByID pokemonID true stat
  simp only [if_true] at hw
  refine ⟨hw, ?_, ?_, ?_⟩
  · rw [hw]
    simp [List.mem_filter]
  · intro y hy
    rw [hw]
    simp [List.mem_filter, hy]
  · intro habs
    rw [hw, List.filter_eq_self]
    intro a ha
    have : a ≠ pokemonID := fun hcontra => habs (hcontra ▸ ha)
    simpa using this

/-- Witness for C4: answering id 2 correctly with missed list `[2, 5]`. -/
theorem correct_answer_removes_missed_witness :
    (2 : Int) ∉ (updateUserStats sampleMap 2 true
      { TotalQuestions := 3, TotalCorrect := 1, WrongAnswers := [2, 5],
        RegionalStats := [] }).WrongAnswers :=
  (correct_answer_removes_missed sampleMap 2
    { TotalQuestions := 3, TotalCorrect := 1, WrongAnswers := [2, 5],
      RegionalStats := [] }).2.1

/-! ### C5: recording the same incorrect answer twice is idempotent -/

/-- C5: recording the same incorrect id twice yields the same missed list as
recording it once, so in particular the missed-set size is unchanged by the
second call. -/
theorem incorrect_answer_idempotent (pokemonMapByID : Int → Option Pokemon)
    (pokemonID : Int) (stat : UserStat) :
    (updateUserStats pokemonMapByID pokemonID false
        (updateUserStats pokemonMapByID pokemonID false stat)).WrongAnswers
      = (updateUserStats pokemonMapByID pokemonID false stat).WrongAnswers ∧
    (updateUserStats pokemonMapByID pokemonID false
        (updateUserStats pokemonMapByID pokemonID false stat)).WrongAnswers.length
      = (updateUserStats pokemonMapByID pokemonID false stat).WrongAnswers.length := by
  have h1 := updateUserStats_wrongAnswers pokemonMapByID pokemonID false stat
  have hmem : pokemonID ∈ (updateUserStats pokemonMapByID pokemonID false stat).WrongAnswers := by
    rw [h1]
    by_cases hm : pokemonID ∈ stat.WrongAnswers <;> simp [hm]
  have h2 := updateUserStats_wrongAnswers pokemonMapByID pokemonID false
    (updateUserStats pokemonMapByID pokemonID false stat)
  simp only [Bool.false_eq_true, if_false, hmem, if_true] at h2
  exact ⟨h2, by rw [h2]⟩

/-! ### C3: normal mode with an unknown or empty category

The spec says the request "fails with `NotFound`"; the handler in fact
rejects it with HTTP 400 Bad Request ("Invalid or empty region specified",
main.go line 355), not with `http.StatusNotFound` (404) as it does for the
other `NotFound`-family rejections. -/

def emptyIndex : String → Option (List Pokemon) := fun _ => none

/-- Counterexample to C3 as stated: with no category index at all, requesting
"johto" in normal mode does not produce a 404 NotFound rejection (it produces
a 400). -/
theorem normal_mode_unknown_not_404 :
    quizResultStatus (handleGetQuizNormal emptyIndex 0 zeroStream zeroStream "johto")
      ≠ some 404 := by
  decide

/-- C3 amended: a normal-mode request whose category is not a key of the
index, or whose pool is empty, is rejected with HTTP 400 ("Invalid or empty
region specified") and no question is returned. -/
theorem normal_mode_unknown_or_empty_rejected
    (pokemonListByRegion : String → Option (List Pokemon))
    (randIndex : Nat) (rs1 rs2 : Nat → Nat) (region : String)
    (h : pokemonListByRegion region = none
      ∨ pokemonListByRegion region = some ([] : List Pokemon)) :
    handleGetQuizNormal pokemonListByRegion randIndex rs1 rs2 region
      = .httpError 400 "Invalid or empty region specified" := by
  rcases h with h | h <;> simp [handleGetQuizNormal, h]

/-- Witness for amended C3: "johto" is absent from the kanto-only index. -/
theorem normal_mode_unknown_or_empty_rejected_witness :
    handleGetQuizNormal kantoIndex 0 zeroStream zeroStream "johto"
      = .httpError 400 "Invalid or empty region specified" :=
  normal_mode_unknown_or_empty_rejected kantoIndex 0 zeroStream zeroStream "johto"
    (Or.inl (by decide))

/-! ### C6: operations on a record id absent from the dataset

`handleAnswer` with an unknown id does reject with 404 NotFound, but
review-mode question generation whose drawn missed id has no record rejects
with HTTP 500 Internal Server Error (main.go line 334), not 404. -/

def noPokemon : Int → Option Pokemon := fun _ => none

/-- Counterexample to C6 as stated: with an empty dataset and missed list
`[5]`, review mode does not produce a 404 NotFound rejection for the unknown
drawn id (it produces a 500). -/
theorem review_unknown_id_not_404 :
    quizResultStatus (handleGetQuizRetry noPokemon emptyIndex [] [5] 0 zeroStream zeroStream)
      ≠ some 404 := by
  decide

/-- C6 amended: `handleAnswer` on an id with no record rejects with HTTP 404
("Pokemon not found"); review-mode generation whose drawn missed id has no
record rejects with HTTP 500, and neither returns a question. -/
theorem unknown_record_rejections (pokemonMapByID : Int → Option Pokemon)
    (pokemonListByRegion : String → Option (List Pokemon)) (allPokemon : List Pokemon)
    (wrongIDs : List Int) (randIndex : Nat) (rs1 rs2 : Nat → Nat)
    (reqID : Int) (reqName : String)
    (hreq : pokemonMapByID reqID = none)
    (hlen : 0 < wrongIDs.length)
    (hdrawn : pokemonMapByID
      (wrongIDs.get ⟨randIndex % wrongIDs.length, Nat.mod_lt _ hlen⟩) = none) :
    handleAnswer pokemonMapByID reqID reqName = .httpError 404 "Pokemon not found" ∧
    handleGetQuizRetry pokemonMapByID pokemonListByRegion allPokemon wrongIDs randIndex rs1 rs2
      = .httpError 500 "ポケモンのデータが見つかりません" := by
  constructor
  · simp [handleAnswer, hreq]
  · have hne : ¬wrongIDs.length = 0 := by omega
    unfold handleGetQuizRetry
    rw [dif_neg hne]
    simp only [hdrawn]

/-- Witness for amended C6 with a one-record dataset lacking ids 5 and 9. -/
theorem unknown_record_rejections_witness :
    handleAnswer sampleMap 9 "リザードン" = .httpError 404 "Pokemon not found" ∧
    handleGetQuizRetry sampleMap kantoIndex [] [5] 0 zeroStream zeroStream
      = .httpError 500 "ポケモンのデータが見つかりません" :=
  unknown_record_rejections sampleMap kantoIndex [] [5] 0 zeroStream zeroStream 9
    "リザードン" (by decide) (by decide) (by decide)

/-! ### C7: classification never overwrites a special category -/

theorem containsSub_of_prefix {p1 p2 s : List Char} (hpre : p1 <+: p2)
    (h : containsSub s p2 = true) : containsSub s p1 = true := by
  induction s with
  | nil =>
    simp only [containsSub, List.isEmpty_iff] at h ⊢
    subst h
    exact List.prefix_nil.mp hpre
  | cons c t ih =>
    simp only [containsSub, Bool.or_eq_true] at h ⊢
    rcases h with h | h
    · exact Or.inl (List.isPrefixOf_iff_prefix.mpr
        (hpre.trans (List.isPrefixOf_iff_prefix.mp h)))
    · exact Or.inr (ih h)

theorem hasSub_mono {s pat1 pat2 : String} (hpre : pat1.data <+: pat2.data)
    (h : hasSub s pat2 = true) : hasSub s pat1 = true :=
  containsSub_of_prefix hpre h

/-- The name-pattern dispatch of pass 1 agrees with the builder's dispatch:
a record whose source name carries a special-form pattern is assigned exactly
the category the builder would store for that name. -/
theorem pass1Assign_of_varietyCategory {p : Pokemon} {c : String}
    (h : varietyCategory p.EnglishName = some c) : (pass1Assign p).Category = c := by
  cases hm : hasSub p.EnglishName "-mega"
  · have hmx : hasSub p.EnglishName "-mega-x" = false := by
      cases hc : hasSub p.EnglishName "-mega-x"
      · rfl
      · rw [hasSub_mono ⟨"-x".data, rfl⟩ hc] at hm
        cases hm
    have hmy : hasSub p.EnglishName "-mega-y" = false := by
      cases hc : hasSub p.EnglishName "-mega-y"
      · rfl
      · rw [hasSub_mono ⟨"-y".data, rfl⟩ hc] at hm
        cases hm
    cases hg : hasSub p.EnglishName "-gmax"
    · cases hr : (hasSub p.EnglishName "-alola" || hasSub p.EnglishName "-galar" ||
          hasSub p.EnglishName "-hisui" || hasSub p.EnglishName "-paldea")
      · simp [varietyCategory, hm, hmx, hmy, hg, hr] at h
      · simp only [varietyCategory, hm, hmx, hmy, hg, hr, Bool.or_false, Bool.false_or,
          Bool.false_eq_true, if_false, if_true, Option.some.injEq] at h
        subst h
        simp [pass1Assign, hm, hg, hr]
    · simp only [varietyCategory, hm, hmx, hmy, hg, Bool.or_false, Bool.false_or,
        Bool.false_eq_true, if_false, if_true, Option.some.injEq] at h
      subst h
      simp [pass1Assign, hm, hg]
  · simp only [varietyCategory, hm, Bool.true_or, if_true, Option.some.injEq] at h
    subst h
    simp [pass1Assign, hm]

theorem varietyCategory_ne_empty {n : String} {c : String}
    (h : varietyCategory n = some c) : c ≠ "" := by
  rw [varietyCategory] at h
  split at h
  · cases h
    decide
  · split at h
    · cases h
      decide
    · split at h
      · cases h
        decide
      · cases h

/-- Pass 2 never touches a record whose category is non-empty: the record at
any position is preserved verbatim through the whole generation fold. -/
theorem pass2_preserves_nonempty (genMembers : Int → Option (List Int)) :
    ∀ (regionOrder : List (String × Int)) (acc : List Pokemon) (i : Nat) (p : Pokemon),
      acc[i]? = some p → p.Category ≠ "" →
      (regionOrder.foldl (pass2Step genMembers) acc)[i]? = some p := by
  intro regionOrder
  induction regionOrder with
  | nil => intro acc i p hp _; simpa using hp
  | cons rg t ih =>
    intro acc i p hp hcat
    have hstep : (pass2Step genMembers acc rg)[i]? = some p := by
      rw [pass2Step]
      split
      · exact hp
      · cases hgm : genMembers rg.2
        · exact hp
        · rename_i memberIDs
          have hid : assignRegion rg.1 memberIDs p = p := by
            rw [assignRegion, if_neg]
            intro hcond
            exact hcat hcond.2
          rw [List.getElem?_map, hp]
          simp [hid]
    exact ih (pass2Step genMembers acc rg) i p hstep hcat

/-- C7: a record whose source name matches a special-form pattern — which by
`pass1Assign_of_varietyCategory` includes every record the builder stored
with a pre-set special category — survives classification verbatim with that
special category: pass 1 (re)assigns the same value and the
generation-membership pass only ever assigns to records whose category is
still empty, so generation membership can never overwrite it. -/
theorem classification_keeps_special (genMembers : Int → Option (List Int))
    (regionOrder : List (String × Int)) (ps : List Pokemon) (i : Nat)
    (p : Pokemon) (c : String)
    (hp : ps[i]? = some p)
    (hspecial : varietyCategory p.EnglishName = some c) :
    (fetchCategoryData genMembers regionOrder ps)[i]? = some (pass1Assign p) ∧
    (pass1Assign p).Category = c := by
  have hcat : (pass1Assign p).Category = c := pass1Assign_of_varietyCategory hspecial
  have hne : (pass1Assign p).Category ≠ "" := by
    rw [hcat]
    exact varietyCategory_ne_empty hspecial
  have hmap : (ps.map pass1Assign)[i]? = some (pass1Assign p) := by
    rw [List.getElem?_map, hp]
    rfl
  exact ⟨pass2_preserves_nonempty genMembers regionOrder (ps.map pass1Assign) i
    (pass1Assign p) hmap hne, hcat⟩

/-- Witness for C7: mega charizard X, listed as a generation-1 member, keeps
category "mega" through classification. -/
theorem classification_keeps_special_witness :
    (fetchCategoryData (fun _ => some [1, 10034]) [("kanto", 1), ("mega", -1)]
        [bulbasaur, charizardMegaX])[1]? = some (pass1Assign charizardMegaX) ∧
    (pass1Assign charizardMegaX).Category = "mega" :=
  classification_keeps_special (fun _ => some [1, 10034]) [("kanto", 1), ("mega", -1)]
    [bulbasaur, charizardMegaX] 1 charizardMegaX "mega" rfl (by decide)

/-! ### C8 and C10: cache completeness check on the sample record -/

/-- C8: with a cached dataset whose record with id 1 exists and has empty
types, zero height or zero weight, startup discards the cache, uses the full
re-fetch as the in-memory dataset, and overwrites the cache file with it. -/
theorem incomplete_cache_rebuilds (genMembers : Int → Option (List Int))
    (regionOrder : List (String × Int)) (fetched cached : List Pokemon) (p : Pokemon)
    (hget : mapLookup cached 1 = some p)
    (hbad : p.Types = [] ∨ p.Height = 0 ∨ p.Weight = 0) :
    loadOrFetchPokemonData genMembers regionOrder fetched (some cached)
      = (fetched, some fetched) := by
  unfold loadOrFetchPokemonData
  simp only [hget]
  rw [if_pos hbad]

def zeroWeightBulbasaur : Pokemon :=
  { ID := 1, Name := "フシギダネ", EnglishName := "bulbasaur", Category := "kanto"
    Stats := sampleStats, ImageURL := "", Height := 7/10, Weight := 0
    Types := ["くさ", "どく"] }

/-- Witness for C8: a cached sample record with weight 0 forces the rebuild. -/
theorem incomplete_cache_rebuilds_witness :
    loadOrFetchPokemonData (fun _ => none) [] [bulbasaur, ivysaur]
        (some [zeroWeightBulbasaur, ivysaur])
      = ([bulbasaur, ivysaur], some [bulbasaur, ivysaur]) :=
  incomplete_cache_rebuilds (fun _ => none) [] [bulbasaur, ivysaur]
    [zeroWeightBulbasaur, ivysaur] zeroWeightBulbasaur rfl
    (Or.inr (Or.inr (by decide)))

/-- C10: the completeness check only looks at the record with id 1; a cached
dataset with no such record is accepted verbatim — the in-memory dataset is
the cache and no rebuild or rewrite happens — regardless of what is missing
from its records. -/
theorem cache_without_sample_accepted (genMembers : Int → Option (List Int))
    (regionOrder : List (String × Int)) (fetched cached : List Pokemon)
    (hget : mapLookup cached 1 = none) :
    loadOrFetchPokemonData genMembers regionOrder fetched (some cached)
      = (cached, some cached) := by
  unfold loadOrFetchPokemonData
  simp only [hget]

def incompleteIvysaur : Pokemon :=
  { ID := 2, Name := "フシギソウ", EnglishName := "ivysaur", Category := ""
    Stats := sampleStats, ImageURL := "", Height := 0, Weight := 0
    Types := [] }

/-- Witness for C10: a cache whose only record (id 2) has empty types and
zero height and weight is still accepted, because id 1 is absent. -/
theorem cache_without_sample_accepted_witness :
    loadOrFetchPokemonData (fun _ => none) [] [bulbasaur, ivysaur]
        (some [incompleteIvysaur])
      = ([incompleteIvysaur], some [incompleteIvysaur]) :=
  cache_without_sample_accepted (fun _ => none) [] [bulbasaur, ivysaur]
    [incompleteIvysaur] (by decide)

/-! ### C9: lazy legacy migration of regional stats -/

theorem migrate_foldl_correct (wrongIDs : List Int) (c : String) :
    ∀ (ds : List Pokemon) (acc : List (String × RegionalStatDetail)),
      (lookupRegional (ds.foldl (migrateStep wrongIDs) acc) c).Correct
        = (lookupRegional acc c).Correct := by
  intro ds
  induction ds with
  | nil => intro _; rfl
  | cons q ds ih =>
    intro acc
    rw [List.foldl_cons, ih, migrateStep]
    split
    · rfl
    · split
      · by_cases hqc : q.Category = c
        · subst hqc
          rw [lookupRegional_insertRegional]
        · rw [lookupRegional_insertRegional_ne _ _ _ _ (fun h => hqc h.symm)]
      · rfl

theorem migrate_foldl_total (wrongIDs : List Int) (c : String) (hc : c ≠ "") :
    ∀ (ds : List Pokemon) (acc : List (String × RegionalStatDetail)),
      (lookupRegional (ds.foldl (migrateStep wrongIDs) acc) c).Total
        = (lookupRegional acc c).Total
          + ((ds.filter (fun p => p.Category == c && decide (p.ID ∈ wrongIDs))).length : Int) := by
  intro ds
  induction ds with
  | nil => intro _; simp
  | cons q ds ih =>
    intro acc
    rw [List.foldl_cons, ih, List.filter_cons]
    by_cases hq : q.Category = ""
    · have hcond : (q.Category == c && decide (q.ID ∈ wrongIDs)) = false := by
        simp [hq, Ne.symm hc]
      simp only [hcond, Bool.false_eq_true, if_false]
      rw [migrateStep, if_pos hq]
    · by_cases hw : q.ID ∈ wrongIDs
      · by_cases hqc : q.Category = c
        · have hcond : (q.Category == c && decide (q.ID ∈ wrongIDs)) = true := by
            simp [hqc, hw]
          simp only [hcond, if_true, List.length_cons]
          rw [migrateStep, if_neg hq, if_pos hw, hqc, lookupRegional_insertRegional]
          push_cast
          ring
        · have hcond : (q.Category == c && decide (q.ID ∈ wrongIDs)) = false := by
            simp [hqc]
          simp only [hcond, Bool.false_eq_true, if_false]
          rw [migrateStep, if_neg hq, if_pos hw,
            lookupRegional_insertRegional_ne _ _ _ _ (fun h => hqc h.symm)]
      · have hcond : (q.Category == c && decide (q.ID ∈ wrongIDs)) = false := by
          simp [hw]
        simp only [hcond, Bool.false_eq_true, if_false]
        rw [migrateStep, if_neg hq, if_neg hw]

/-- C9: on a stats read with an empty decoded regional map and positive
total-answered count, the stored progress record is returned unchanged (no
write-back), and the migrated map presented to the caller has, for every
category, total equal to the number of dataset records of that category whose
id is currently missed, and correct count 0.  Being a pure function of the
dataset and the missed list, repeated calls on the same state recompute the
same result. -/
theorem stats_migration_spec (pokemonMapByID : List Pokemon) (userStat : UserStat)
    (c : String)
    (hempty : userStat.RegionalStats = [])
    (hpos : 0 < userStat.TotalQuestions)
    (hc : c ≠ "") :
    (handleGetStats pokemonMapByID userStat).2 = userStat ∧
    (lookupRegional (handleGetStats pokemonMapByID userStat).1 c).Total
      = ((pokemonMapByID.filter
          (fun p => p.Category == c && decide (p.ID ∈ userStat.WrongAnswers))).length : Int) ∧
    (lookupRegional (handleGetStats pokemonMapByID userStat).1 c).Correct = 0 := by
  have hif : (handleGetStats pokemonMapByID userStat).1
      = migrateRegionalStatsFromWrongAnswers pokemonMapByID userStat := by
    rw [handleGetStats]
    simp [hempty, hpos]
  refine ⟨rfl, ?_, ?_⟩
  · rw [hif, migrateRegionalStatsFromWrongAnswers, migrate_foldl_total _ _ hc]
    simp [lookupRegional]
  · rw [hif, migrateRegionalStatsFromWrongAnswers, migrate_foldl_correct]
    rfl

/-- Witness for C9: user with missed list `[2, 5]` over a three-record kanto
dataset; the migrated kanto counters are recomputed from the missed list and
the stored record is untouched. -/
theorem stats_migration_spec_witness :
    (handleGetStats [bulbasaur, ivysaur, venusaur]
        { TotalQuestions := 3, TotalCorrect := 1, WrongAnswers := [2, 5],
          RegionalStats := [] }).2
      = { TotalQuestions := 3, TotalCorrect := 1, WrongAnswers := [2, 5],
          RegionalStats := [] } ∧
    (lookupRegional (handleGetStats [bulbasaur, ivysaur, venusaur]
        { TotalQuestions := 3, TotalCorrect := 1, WrongAnswers := [2, 5],
          RegionalStats := [] }).1 "kanto").Total
      = ((([bulbasaur, ivysaur, venusaur] : List Pokemon).filter
          (fun p => p.Category == "kanto" && decide (p.ID ∈ ([2, 5] : List Int)))).length : Int) ∧
    (lookupRegional (handleGetStats [bulbasaur, ivysaur, venusaur]
        { TotalQuestions := 3, TotalCorrect := 1, WrongAnswers := [2, 5],
          RegionalStats := [] }).1 "kanto").Correct = 0 :=
  stats_migration_spec [bulbasaur, ivysaur, venusaur]
    { TotalQuestions := 3, TotalCorrect := 1, WrongAnswers := [2, 5], RegionalStats := [] }
    "kanto" rfl (by decide) (by decide)

end PokeQuiz
